import Mathlib

/-!
Shallow embedding of the enrollment / assignment-progress core of the
caliber-milestone-one backend (src/backend/app/models.py, crud.py, main.py,
schemas.py).  Tables are lists of rows; `datetime.utcnow()` is modelled by an
explicit `now : Nat` parameter threaded into every operation that stamps a
timestamp; SQL `SELECT ... .first()` is `List.find?`; the ORM's in-place row
mutation is first-match replacement in the list.
-/

namespace Caliber

/-- Row of the `user` table (models.py `User`).  The surrogate integer primary
key is never read by any code path and is omitted; lookups go through the
unique `user_id` column. -/
structure User where
  userId : String
  email : Option String
  firstName : Option String
  lastName : Option String
  admin : Bool
  teacher : Bool
  pending : Bool
  createdAt : Nat
  updatedAt : Nat
  deriving DecidableEq

/-- Row of the `course` table (models.py `Course`). -/
structure Course where
  id : Nat
  courseName : String
  courseCode : String
  schoolName : String
  instructorId : String
  createdAt : Nat
  updatedAt : Nat
  deriving DecidableEq

/-- Row of the `course_student` association table (models.py `CourseStudent`);
its primary key is the composite (course_id, student_id). -/
structure CourseStudent where
  courseId : Nat
  studentId : String
  enrolledAt : Nat
  deriving DecidableEq

/-- Row of the `assignment` table (models.py `Assignment`).  The JSON-encoded
`assignment_questions` column is modelled as the list of question ids it
serializes; datetimes are `Option Nat`. -/
structure Assignment where
  id : Nat
  nodeId : Option String
  instructorEmail : String
  instructorId : String
  course : String
  courseId : Nat
  title : String
  type : String
  description : String
  releaseDate : Option Nat
  dueDateSoft : Option Nat
  dueDateHard : Option Nat
  latePolicyId : Option String
  assignmentQuestions : List Int
  createdAt : Nat
  updatedAt : Nat
  deriving DecidableEq

/-- Row of the `assignment_progress` table (models.py `AssignmentProgress`).
The surrogate integer primary key is never read by any code path and is
omitted; the load-bearing key is the unique (assignment_id, student_id) pair.
`answers` is the stored JSON text. -/
structure AssignmentProgress where
  assignmentId : Nat
  studentId : String
  answers : String
  currentQuestionIndex : Int
  submitted : Bool
  submittedAt : Option Nat
  createdAt : Nat
  updatedAt : Nat
  deriving DecidableEq

/-- The relational store: one list per table, plus the autoincrement counters
for the two integer primary keys the code reads back after insert. -/
structure DB where
  users : List User
  courses : List Course
  enrollments : List CourseStudent
  assignments : List Assignment
  progresses : List AssignmentProgress
  nextCourseId : Nat
  nextAssignmentId : Nat
  deriving DecidableEq

/-- Python str.strip(): drop leading and trailing whitespace.  Defined on the
character list so that it is structurally recursive and kernel-evaluable. -/
def pyStrip (s : String) : String :=
  ⟨((s.data.dropWhile Char.isWhitespace).reverse.dropWhile Char.isWhitespace).reverse⟩

/-- Python str.upper(), defined on the character list. -/
def pyUpper (s : String) : String :=
  ⟨s.data.map Char.toUpper⟩

/-- Decimal digit run to a number; none when empty or a non-digit occurs. -/
def digitsToNat (ds : List Char) : Option Nat :=
  if ds.isEmpty then none
  else ds.foldl (fun acc c =>
    match acc with
    | none => none
    | some n => if c.isDigit then some (n * 10 + (c.toNat - 48)) else none) (some 0)

/-- Python int(...) on an already-stripped string: optional sign then decimal
digits, anything else raises (modelled as none). -/
def pyInt? (s : String) : Option Int :=
  match s.data with
  | '-' :: ds => (digitsToNat ds).map (fun n => -(n : Int))
  | '+' :: ds => (digitsToNat ds).map (fun n => (n : Int))
  | ds => (digitsToNat ds).map (fun n => (n : Int))

/-- crud.get_user_by_user_id: first user row with the given user_id. -/
def get_user_by_user_id (users : List User) (uid : String) : Option User :=
  users.find? (fun u => u.userId == uid)

/-- Replace the first user row whose user_id matches (ORM in-place mutation of
the row fetched by `get_user_by_user_id`). -/
def replaceUser : List User → String → User → List User
  | [], _, _ => []
  | u :: rest, uid, u' =>
      if u.userId == uid then u' :: rest else u :: replaceUser rest uid u'

/-- Field updates of crud.update_user_roles applied to the fetched user row:
optional admin/teacher/pending overwrite, then `teacher is True` clears
pending and `pending is True` clears teacher, then updated_at is stamped. -/
def applyUserRoles (u : User) (now : Nat)
    (admin teacher pending : Option Bool) : User :=
  let u1 := match admin with
    | some a => { u with admin := a }
    | none => u
  let u2 := match teacher with
    | some t => { u1 with teacher := t }
    | none => u1
  let u3 := match pending with
    | some p => { u2 with pending := p }
    | none => u2
  let u4 := if teacher == some true then { u3 with pending := false } else u3
  let u5 := if pending == some true then { u4 with teacher := false } else u4
  { u5 with updatedAt := now }

/-- crud.update_user_roles. -/
def update_user_roles (db : DB) (now : Nat) (uid : String)
    (admin teacher pending : Option Bool) : Option User × DB :=
  match get_user_by_user_id db.users uid with
  | none => (none, db)
  | some u =>
      let u' := applyUserRoles u now admin teacher pending
      (some u', { db with users := replaceUser db.users uid u' })

/-- Name handling of crud.update_user_profile: a provided name is stripped and
only applied when non-empty after stripping. -/
def applyProfileName (cur : Option String) (newName : Option String) : Option String :=
  match newName with
  | some n => if pyStrip n ≠ "" then some (pyStrip n) else cur
  | none => cur

/-- Field updates of crud.update_user_profile applied to the fetched user row:
trimmed-name updates, optional teacher/pending overwrite, then the same two
mutual-exclusion clauses as update_user_roles, then updated_at. -/
def applyUserProfile (u : User) (now : Nat)
    (firstName lastName : Option String) (teacher pending : Option Bool) : User :=
  let u1 := { u with firstName := applyProfileName u.firstName firstName,
                     lastName := applyProfileName u.lastName lastName }
  let u2 := match teacher with
    | some t => { u1 with teacher := t }
    | none => u1
  let u3 := match pending with
    | some p => { u2 with pending := p }
    | none => u2
  let u4 := if teacher == some true then { u3 with pending := false } else u3
  let u5 := if pending == some true then { u4 with teacher := false } else u4
  { u5 with updatedAt := now }

/-- crud.update_user_profile. -/
def update_user_profile (db : DB) (now : Nat) (uid : String)
    (firstName lastName : Option String) (teacher pending : Option Bool) :
    Option User × DB :=
  match get_user_by_user_id db.users uid with
  | none => (none, db)
  | some u =>
      let u' := applyUserProfile u now firstName lastName teacher pending
      (some u', { db with users := replaceUser db.users uid u' })

/-- The fresh user row built by crud.get_or_create_user when no row exists:
admin, teacher and pending all start false. -/
def mkNewUser (uid : String) (email : Option String) (now : Nat) : User :=
  { userId := uid, email := email, firstName := none, lastName := none,
    admin := false, teacher := false, pending := false,
    createdAt := now, updatedAt := now }

/-- crud.get_course: lookup by primary key (session.get). -/
def get_course (db : DB) (courseId : Nat) : Option Course :=
  db.courses.find? (fun c => c.id == courseId)

/-- crud.get_course_by_code: the code is stripped and upper-cased before the
unique-column lookup. -/
def get_course_by_code (db : DB) (courseCode : String) : Option Course :=
  let normalized := pyUpper (pyStrip courseCode)
  db.courses.find? (fun c => c.courseCode == normalized)

/-- crud.get_course_students: student ids of the course's enrollment rows. -/
def get_course_students (db : DB) (courseId : Nat) : List String :=
  (db.enrollments.filter (fun e => e.courseId == courseId)).map (fun e => e.studentId)

/-- Truth of the `.first()` existence check in crud.enroll_student_in_course. -/
def enrollmentExists (db : DB) (courseId : Nat) (studentId : String) : Bool :=
  db.enrollments.any (fun e => e.courseId == courseId && e.studentId == studentId)

/-- Truth of the `.first()` existence check in
crud.create_assignment_progress_rows. -/
def progressExists (db : DB) (assignmentId : Nat) (studentId : String) : Bool :=
  db.progresses.any (fun p => p.assignmentId == assignmentId && p.studentId == studentId)

/-- The default progress row inserted by crud.create_assignment_progress_rows
and by the create branch of crud.upsert_assignment_progress: empty answer map,
index 0, not submitted. -/
def mkDefaultProgress (assignmentId : Nat) (studentId : String) (now : Nat) :
    AssignmentProgress :=
  { assignmentId := assignmentId, studentId := studentId, answers := "\x7b\x7d",
    currentQuestionIndex := 0, submitted := false, submittedAt := none,
    createdAt := now, updatedAt := now }

/-- crud.create_assignment_progress_rows: for each listed student, insert the
default row unless a row for (assignment, student) already exists (rows added
earlier in the same loop are visible to later checks via autoflush). -/
def create_assignment_progress_rows (db : DB) (now : Nat) (assignmentId : Nat)
    (studentIds : List String) : DB :=
  studentIds.foldl (fun acc sid =>
    if progressExists acc assignmentId sid then acc
    else { acc with progresses := acc.progresses ++ [mkDefaultProgress assignmentId sid now] }) db

/-- crud.create_assignment_progress_for_student_in_course: the ids of the
course's assignments are read once, then create_assignment_progress_rows is
called for each with the single student (the early return on an empty
assignment list is the empty fold). -/
def create_assignment_progress_for_student_in_course (db : DB) (now : Nat)
    (courseId : Nat) (studentId : String) : DB :=
  let assignmentIds := (db.assignments.filter (fun a => a.courseId == courseId)).map (fun a => a.id)
  assignmentIds.foldl (fun acc aid => create_assignment_progress_rows acc now aid [studentId]) db

/-- crud.enroll_student_in_course: committed no-op returning false when the
enrollment row already exists; otherwise insert the row, then backfill
progress rows for every assignment of the course, and return true. -/
def enroll_student_in_course (db : DB) (now : Nat) (courseId : Nat)
    (studentId : String) : Bool × DB :=
  if enrollmentExists db courseId studentId then (false, db)
  else
    let db1 := { db with enrollments :=
      db.enrollments ++ [{ courseId := courseId, studentId := studentId, enrolledAt := now }] }
    (true, create_assignment_progress_for_student_in_course db1 now courseId studentId)

/-- crud.get_assignment_progress: first row for the (assignment, student) pair. -/
def get_assignment_progress (db : DB) (assignmentId : Nat) (studentId : String) :
    Option AssignmentProgress :=
  db.progresses.find? (fun p => p.assignmentId == assignmentId && p.studentId == studentId)

/-- Field updates of crud.upsert_assignment_progress applied to the progress
row: each provided field overwrites the stored value, the index is clamped to
be non-negative, and submitted_at is stamped exactly when `submitted` is
provided as true; updated_at is always stamped.  The `answers` parameter is
the JSON text json.dumps would produce for the given dict. -/
def applyProgressUpdate (p : AssignmentProgress) (now : Nat)
    (answers : Option String) (currentQuestionIndex : Option Int)
    (submitted : Option Bool) : AssignmentProgress :=
  let p1 := match answers with
    | some a => { p with answers := a }
    | none => p
  let p2 := match currentQuestionIndex with
    | some i => { p1 with currentQuestionIndex := max 0 i }
    | none => p1
  let p3 := match submitted with
    | some s =>
        let q := { p2 with submitted := s }
        if s then { q with submittedAt := some now } else q
    | none => p2
  { p3 with updatedAt := now }

/-- Replace the first progress row matching the (assignment, student) key (ORM
in-place mutation of the row fetched by get_assignment_progress). -/
def replaceProgress : List AssignmentProgress → Nat → String → AssignmentProgress →
    List AssignmentProgress
  | [], _, _, _ => []
  | p :: rest, aid, sid, p' =>
      if p.assignmentId == aid && p.studentId == sid then p' :: rest
      else p :: replaceProgress rest aid sid p'

/-- crud.upsert_assignment_progress: fetch or insert the default row, then
apply the partial update to that row and store it. -/
def upsert_assignment_progress (db : DB) (now : Nat) (assignmentId : Nat)
    (studentId : String) (answers : Option String)
    (currentQuestionIndex : Option Int) (submitted : Option Bool) :
    AssignmentProgress × DB :=
  match get_assignment_progress db assignmentId studentId with
  | some p =>
      let p' := applyProgressUpdate p now answers currentQuestionIndex submitted
      (p', { db with progresses := replaceProgress db.progresses assignmentId studentId p' })
  | none =>
      let p' := applyProgressUpdate (mkDefaultProgress assignmentId studentId now)
        now answers currentQuestionIndex submitted
      (p', { db with progresses := db.progresses ++ [p'] })

/-- crud.create_course: insert the course row, then insert one enrollment row
per listed student id with no validation of any kind.  The course_code comes
from generate_unique_course_code, which draws random suffixes from a CSPRNG
until the code is unused; the embedding takes the generated code as a
parameter since no claim depends on its value. -/
def create_course (db : DB) (now : Nat) (courseName : String)
    (instructorId : String) (schoolName : String) (studentIds : List String)
    (courseCode : String) : Course × DB :=
  let course : Course :=
    { id := db.nextCourseId, courseName := courseName, courseCode := courseCode,
      schoolName := schoolName, instructorId := instructorId,
      createdAt := now, updatedAt := now }
  let db1 := { db with courses := db.courses ++ [course],
                       nextCourseId := db.nextCourseId + 1 }
  let newRows : List CourseStudent :=
    studentIds.map (fun sid => { courseId := course.id, studentId := sid, enrolledAt := now })
  let db2 := { db1 with enrollments := db1.enrollments ++ newRows }
  (course, db2)

/-- HTTP error taxonomy of the route handlers (main.py HTTPException statuses). -/
inductive ApiError
  | notFound
  | forbidden
  deriving DecidableEq

/-- main.py create_new_course endpoint: requires the caller to exist and be a
teacher, then delegates to crud.create_course with the request's student_ids
unchecked. -/
def create_new_course (db : DB) (now : Nat) (userId : String)
    (courseName schoolName : String) (studentIds : List String)
    (courseCode : String) : Except ApiError (Course × DB) :=
  match get_user_by_user_id db.users userId with
  | none => Except.error ApiError.forbidden
  | some u =>
      if u.teacher then
        Except.ok (create_course db now courseName userId schoolName studentIds courseCode)
      else Except.error ApiError.forbidden

/-- main.py join_course_by_code endpoint: the caller must exist and must not
be a teacher; the code is normalized and resolved; then the student is
enrolled (the boolean no-op signal is ignored). -/
def join_course_by_code (db : DB) (now : Nat) (userId : String)
    (courseCode : String) : Except ApiError (Course × DB) :=
  match get_user_by_user_id db.users userId with
  | none => Except.error ApiError.notFound
  | some u =>
      if u.teacher then Except.error ApiError.forbidden
      else
        match get_course_by_code db (pyUpper (pyStrip courseCode)) with
        | none => Except.error ApiError.notFound
        | some course =>
            let r := enroll_student_in_course db now course.id userId
            Except.ok (course, r.2)

/-- Validation used by crud.update_course on each candidate roster id: the id
must resolve to an existing user who is not a teacher. -/
def isValidStudent (users : List User) (sid : String) : Bool :=
  match get_user_by_user_id users sid with
  | none => false
  | some u => !u.teacher

/-- Replace the first course row whose id matches (ORM in-place mutation). -/
def replaceCourse : List Course → Nat → Course → List Course
  | [], _, _ => []
  | c :: rest, cid, c' =>
      if c.id == cid then c' :: rest else c :: replaceCourse rest cid c'

/-- crud.update_course: instructor-checked; trimmed-name update; when a roster
is provided, all current enrollment rows of the course are deleted, rows are
re-inserted for the ids that pass isValidStudent (invalid ids silently
dropped), and progress rows are backfilled for ids newly appearing relative to
the previous roster.  Python iterates the newly-added ids in unspecified set
order; the embedding fixes the roster order, which is immaterial because
progress backfill for distinct students is order-independent. -/
def update_course (db : DB) (now : Nat) (courseId : Nat) (instructorId : String)
    (courseName schoolName : Option String) (studentIds : Option (List String)) :
    Option Course × DB :=
  match db.courses.find? (fun c => c.id == courseId) with
  | none => (none, db)
  | some course =>
      if course.instructorId ≠ instructorId then (none, db)
      else
        let course1 := match courseName with
          | some n => if pyStrip n ≠ "" then { course with courseName := pyStrip n } else course
          | none => course
        let course2 := match schoolName with
          | some s => { course1 with schoolName := s }
          | none => course1
        let db1 := match studentIds with
          | none => db
          | some sids =>
              let existingIds := get_course_students db courseId
              let dbDel := { db with enrollments :=
                db.enrollments.filter (fun e => !(e.courseId == courseId)) }
              let validIds := sids.filter (fun s => isValidStudent db.users s)
              let newRows : List CourseStudent :=
                validIds.map (fun s => { courseId := courseId, studentId := s, enrolledAt := now })
              let dbAdd := { dbDel with enrollments := dbDel.enrollments ++ newRows }
              let addedIds := validIds.filter (fun s => !(existingIds.contains s))
              addedIds.foldl
                (fun acc s => create_assignment_progress_for_student_in_course acc now courseId s)
                dbAdd
        let course3 := { course2 with updatedAt := now }
        (some course3, { db1 with courses := replaceCourse db1.courses courseId course3 })

/-- crud.delete_course: instructor-checked; deletes the course's enrollment
rows, then the course's assignment rows, then the course row itself.  No
AssignmentProgress row is touched: crud.py issues no delete for them, the
SQLModel table definitions in models.py declare no ON DELETE CASCADE, and the
default engine (database.py: SQLite, tables created by
SQLModel.metadata.create_all, no foreign-key pragma) enforces no cascade. -/
def delete_course (db : DB) (courseId : Nat) (instructorId : String) : Bool × DB :=
  match db.courses.find? (fun c => c.id == courseId) with
  | none => (false, db)
  | some course =>
      if course.instructorId ≠ instructorId then (false, db)
      else
        let dbA := { db with enrollments :=
          db.enrollments.filter (fun e => !(e.courseId == courseId)) }
        let dbB := { dbA with assignments :=
          dbA.assignments.filter (fun a => !(a.courseId == courseId)) }
        let dbC := { dbB with courses := dbB.courses.eraseP (fun c => c.id == courseId) }
        (true, dbC)

/-- crud.create_assignment: reads the course name, inserts the assignment row
(receiving the fresh primary key), then eagerly creates progress rows for
every currently enrolled student of the course. -/
def create_assignment (db : DB) (now : Nat) (courseId : Nat)
    (instructorId instructorEmail : String) (title type description : String)
    (nodeId : Option String) (releaseDate dueDateSoft dueDateHard : Option Nat)
    (latePolicyId : Option String) (assignmentQuestions : List Int) :
    Assignment × DB :=
  let courseName := match get_course db courseId with
    | some c => c.courseName
    | none => ""
  let a : Assignment :=
    { id := db.nextAssignmentId, nodeId := nodeId,
      instructorEmail := instructorEmail, instructorId := instructorId,
      course := courseName, courseId := courseId, title := title, type := type,
      description := description, releaseDate := releaseDate,
      dueDateSoft := dueDateSoft, dueDateHard := dueDateHard,
      latePolicyId := latePolicyId, assignmentQuestions := assignmentQuestions,
      createdAt := now, updatedAt := now }
  let db1 := { db with assignments := db.assignments ++ [a],
                       nextAssignmentId := db.nextAssignmentId + 1 }
  let studentIds := get_course_students db1 courseId
  (a, create_assignment_progress_rows db1 now a.id studentIds)

/-- Replace the first assignment row whose id matches (ORM in-place mutation). -/
def replaceAssignment : List Assignment → Nat → Assignment → List Assignment
  | [], _, _ => []
  | a :: rest, aid, a' =>
      if a.id == aid then a' :: rest else a :: replaceAssignment rest aid a'

/-- crud.update_assignment: instructor-checked; every provided field
overwrites the stored one independently (title is trim-guarded); no
relationship between the date fields is re-validated. -/
def update_assignment (db : DB) (now : Nat) (assignmentId : Nat)
    (instructorId : String) (title type description nodeId : Option String)
    (releaseDate dueDateSoft dueDateHard : Option Nat)
    (latePolicyId : Option String) (assignmentQuestions : Option (List Int)) :
    Option Assignment × DB :=
  match db.assignments.find? (fun a => a.id == assignmentId) with
  | none => (none, db)
  | some a =>
      if a.instructorId ≠ instructorId then (none, db)
      else
        let a1 := match title with
          | some t => if pyStrip t ≠ "" then { a with title := pyStrip t } else a
          | none => a
        let a2 := match type with
          | some v => { a1 with type := v }
          | none => a1
        let a3 := match description with
          | some v => { a2 with description := v }
          | none => a2
        let a4 := match nodeId with
          | some v => { a3 with nodeId := some v }
          | none => a3
        let a5 := match releaseDate with
          | some v => { a4 with releaseDate := some v }
          | none => a4
        let a6 := match dueDateSoft with
          | some v => { a5 with dueDateSoft := some v }
          | none => a5
        let a7 := match dueDateHard with
          | some v => { a6 with dueDateHard := some v }
          | none => a6
        let a8 := match latePolicyId with
          | some v => { a7 with latePolicyId := some v }
          | none => a7
        let a9 := match assignmentQuestions with
          | some v => { a8 with assignmentQuestions := v }
          | none => a8
        let a10 := { a9 with updatedAt := now }
        (some a10, { db with assignments := replaceAssignment db.assignments assignmentId a10 })

/-- crud.delete_assignment: instructor-checked; explicitly deletes the
assignment's progress rows, then the assignment row. -/
def delete_assignment (db : DB) (assignmentId : Nat) (instructorId : String) :
    Bool × DB :=
  match db.assignments.find? (fun a => a.id == assignmentId) with
  | none => (false, db)
  | some a =>
      if a.instructorId ≠ instructorId then (false, db)
      else
        let dbA := { db with progresses :=
          db.progresses.filter (fun p => !(p.assignmentId == assignmentId)) }
        let dbB := { dbA with assignments :=
          dbA.assignments.eraseP (fun x => x.id == assignmentId) }
        (true, dbB)

/-- Python's int(...) on the stripped late-policy string, modelled by
String.toInt?. -/
def validLatePercentage (s : String) : Bool :=
  match pyInt? (pyStrip s) with
  | none => false
  | some n => decide (0 ≤ n) && decide (n ≤ 100)

/-- schemas.AssignmentCreate.validate_required_dates_and_late_policy: true
exactly when the payload passes (all three dates present, late policy a
percentage in [0,100], at least one question, and hard due not before soft
due). -/
def validate_required_dates_and_late_policy
    (releaseDate dueDateSoft dueDateHard : Option Nat)
    (latePolicyId : Option String) (assignmentQuestions : List Int) : Bool :=
  match releaseDate, dueDateSoft, dueDateHard with
  | some _, some soft, some hard =>
      match latePolicyId with
      | none => false
      | some lp =>
          if pyStrip lp == "" then false
          else if assignmentQuestions.isEmpty then false
          else if !(validLatePercentage lp) then false
          else decide (soft ≤ hard)
  | _, _, _ => false

/-! Concrete stores used to instantiate the theorems. -/

/-- A plain student user. -/
def uStudent : User := mkNewUser "s1" none 0

/-- A user whose teacher flag is set. -/
def uTeacher : User := { mkNewUser "t1" none 0 with teacher := true }

/-- The instructor user. -/
def uInstructor : User := { mkNewUser "i1" none 0 with teacher := true }

/-- A course owned by the instructor. -/
def course1 : Course :=
  { id := 1, courseName := "Algorithms", courseCode := "ALGO_AAAAAA",
    schoolName := "", instructorId := "i1", createdAt := 0, updatedAt := 0 }

/-- An assignment of course1 with soft due 10 and hard due 20. -/
def asg10 : Assignment :=
  { id := 10, nodeId := none, instructorEmail := "", instructorId := "i1",
    course := "Algorithms", courseId := 1, title := "HW1", type := "Homework",
    description := "", releaseDate := some 1, dueDateSoft := some 10,
    dueDateHard := some 20, latePolicyId := some "50",
    assignmentQuestions := [1], createdAt := 0, updatedAt := 0 }

/-- Store with the course and the assignment but no enrollment yet. -/
def dbBase : DB :=
  { users := [uStudent, uTeacher, uInstructor], courses := [course1],
    enrollments := [], assignments := [asg10], progresses := [],
    nextCourseId := 2, nextAssignmentId := 11 }

/-- Store with the student enrolled in the course. -/
def dbEnrolled : DB :=
  { dbBase with enrollments := [{ courseId := 1, studentId := "s1", enrolledAt := 0 }] }

/-- A submitted progress row for the assignment and the student. -/
def progSubmitted : AssignmentProgress :=
  { assignmentId := 10, studentId := "s1", answers := "\x7b\x7d",
    currentQuestionIndex := 2, submitted := true, submittedAt := some 7,
    createdAt := 0, updatedAt := 7 }

/-- Store with the enrolled student holding a submitted progress row. -/
def dbWithProgress : DB :=
  { dbEnrolled with progresses := [progSubmitted] }

/-! Helper lemmas about the progress-backfill loops. -/

theorem progressExists_iff (db : DB) (aid : Nat) (sid : String) :
    progressExists db aid sid = true ↔
      ∃ p ∈ db.progresses, p.assignmentId = aid ∧ p.studentId = sid := by
  simp [progressExists, List.any_eq_true, Bool.and_eq_true, beq_iff_eq]

theorem capr_spec (now aid : Nat) (studs : List String) :
    ∀ db : DB, ∃ tail,
      create_assignment_progress_rows db now aid studs =
        { db with progresses := db.progresses ++ tail } ∧
      ∀ p ∈ tail, p.assignmentId = aid ∧ p.studentId ∈ studs ∧
        p.submitted = false ∧ p.currentQuestionIndex = 0 ∧ p.submittedAt = none := by
  induction studs with
  | nil =>
      intro db
      refine ⟨[], ?_, ?_⟩
      · simp [create_assignment_progress_rows]
      · simp
  | cons s rest ih =>
      intro db
      by_cases h : progressExists db aid s = true
      · have hstep : create_assignment_progress_rows db now aid (s :: rest) =
            create_assignment_progress_rows db now aid rest := by
          simp [create_assignment_progress_rows, List.foldl_cons, h]
        obtain ⟨tail, heq, hprops⟩ := ih db
        refine ⟨tail, by rw [hstep]; exact heq, ?_⟩
        intro p hp
        obtain ⟨h1, h2, h3⟩ := hprops p hp
        exact ⟨h1, List.mem_cons_of_mem _ h2, h3⟩
      · have hstep : create_assignment_progress_rows db now aid (s :: rest) =
            create_assignment_progress_rows
              { db with progresses := db.progresses ++ [mkDefaultProgress aid s now] }
              now aid rest := by
          simp [create_assignment_progress_rows, List.foldl_cons, h]
        obtain ⟨tail, heq, hprops⟩ :=
          ih { db with progresses := db.progresses ++ [mkDefaultProgress aid s now] }
        refine ⟨mkDefaultProgress aid s now :: tail, ?_, ?_⟩
        · rw [hstep, heq]
          simp
        · intro p hp
          rcases List.mem_cons.mp hp with rfl | hp'
          · exact ⟨rfl, List.mem_cons_self _ _, rfl, rfl, rfl⟩
          · obtain ⟨h1, h2, h3⟩ := hprops p hp'
            exact ⟨h1, List.mem_cons_of_mem _ h2, h3⟩

theorem fold_capr_spec (now : Nat) (sid : String) (aids : List Nat) :
    ∀ db : DB, ∃ tail,
      List.foldl (fun acc a => create_assignment_progress_rows acc now a [sid]) db aids =
        { db with progresses := db.progresses ++ tail } ∧
      ∀ p ∈ tail, p.studentId = sid ∧ p.submitted = false ∧
        p.currentQuestionIndex = 0 ∧ p.submittedAt = none := by
  induction aids with
  | nil =>
      intro db
      refine ⟨[], ?_, ?_⟩
      · simp
      · simp
  | cons a rest ih =>
      intro db
      obtain ⟨t1, heq1, hprops1⟩ := capr_spec now a [sid] db
      obtain ⟨t2, heq2, hprops2⟩ :=
        ih { db with progresses := db.progresses ++ t1 }
      refine ⟨t1 ++ t2, ?_, ?_⟩
      · rw [List.foldl_cons, heq1, heq2]
        simp
      · intro p hp
        rcases List.mem_append.mp hp with hp' | hp'
        · obtain ⟨_, h2, h3, h4, h5⟩ := hprops1 p hp'
          rcases List.mem_singleton.mp h2 with rfl
          exact ⟨rfl, h3, h4, h5⟩
        · exact hprops2 p hp'

theorem capsic_spec (db : DB) (now cid : Nat) (sid : String) :
    ∃ tail,
      create_assignment_progress_for_student_in_course db now cid sid =
        { db with progresses := db.progresses ++ tail } ∧
      ∀ p ∈ tail, p.studentId = sid ∧ p.submitted = false ∧
        p.currentQuestionIndex = 0 ∧ p.submittedAt = none := by
  exact fold_capr_spec now sid
    ((db.assignments.filter (fun a => a.courseId == cid)).map (fun a => a.id)) db

theorem capr_single_key (db : DB) (now aid : Nat) (sid : String) :
    ∃ p ∈ (create_assignment_progress_rows db now aid [sid]).progresses,
      p.assignmentId = aid ∧ p.studentId = sid := by
  by_cases h : progressExists db aid sid = true
  · obtain ⟨p, hp, hk⟩ := (progressExists_iff db aid sid).mp h
    refine ⟨p, ?_, hk⟩
    simp [create_assignment_progress_rows, h, hp]
  · refine ⟨mkDefaultProgress aid sid now, ?_, rfl, rfl⟩
    simp [create_assignment_progress_rows, h]

theorem fold_capr_coverage (now : Nat) (sid : String) (aids : List Nat) :
    ∀ (db : DB) (aid : Nat), aid ∈ aids →
      ∃ p ∈ (List.foldl (fun acc a => create_assignment_progress_rows acc now a [sid]) db aids).progresses,
        p.assignmentId = aid ∧ p.studentId = sid := by
  induction aids with
  | nil => intro db aid h; exact absurd h (List.not_mem_nil _)
  | cons a rest ih =>
      intro db aid h
      rcases List.mem_cons.mp h with rfl | h'
      · obtain ⟨p, hp, hk⟩ := capr_single_key db now aid sid
        obtain ⟨tail, heq, _⟩ :=
          fold_capr_spec now sid rest (create_assignment_progress_rows db now aid [sid])
        refine ⟨p, ?_, hk⟩
        rw [List.foldl_cons, heq]
        exact List.mem_append_left _ hp
      · exact ih (create_assignment_progress_rows db now a [sid]) aid h'

theorem capsic_coverage (db : DB) (now cid : Nat) (sid : String) :
    ∀ a ∈ db.assignments, a.courseId = cid →
      ∃ p ∈ (create_assignment_progress_for_student_in_course db now cid sid).progresses,
        p.assignmentId = a.id ∧ p.studentId = sid := by
  intro a ha hc
  apply fold_capr_coverage now sid _ db a.id
  refine List.mem_map.mpr ⟨a, ?_, rfl⟩
  refine List.mem_filter.mpr ⟨ha, ?_⟩
  simp [hc]

theorem fold_capsic_spec (now cid : Nat) (sids : List String) :
    ∀ db : DB, ∃ pr,
      List.foldl (fun acc s => create_assignment_progress_for_student_in_course acc now cid s) db sids =
        { db with progresses := pr } := by
  induction sids with
  | nil => intro db; exact ⟨db.progresses, rfl⟩
  | cons s rest ih =>
      intro db
      obtain ⟨tail, heq, -⟩ := capsic_spec db now cid s
      obtain ⟨pr, heq2⟩ := ih { db with progresses := db.progresses ++ tail }
      refine ⟨pr, ?_⟩
      rw [List.foldl_cons, heq, heq2]

/-- C1: when enroll_student_in_course returns true, every assignment of the
course has a progress row for the new student afterwards; all rows the call
added are default rows for that student (submitted=false, index 0), and the
rows that existed before the call are still there, unchanged, at the front of
the table. -/
theorem C1_enroll_backfills_progress (db : DB) (now cid : Nat) (sid : String)
    (db' : DB) (h : enroll_student_in_course db now cid sid = (true, db')) :
    (∃ tail, db'.progresses = db.progresses ++ tail ∧
      ∀ p ∈ tail, p.studentId = sid ∧ p.submitted = false ∧ p.currentQuestionIndex = 0) ∧
    ∀ a ∈ db.assignments, a.courseId = cid →
      ∃ p ∈ db'.progresses, p.assignmentId = a.id ∧ p.studentId = sid := by
  unfold enroll_student_in_course at h
  by_cases hex : enrollmentExists db cid sid = true
  · simp [hex] at h
  · rw [if_neg hex] at h
    injection h with h1 h2
    obtain ⟨tail, heq, hprops⟩ := capsic_spec
      { db with enrollments := db.enrollments ++ [{ courseId := cid, studentId := sid, enrolledAt := now }] }
      now cid sid
    constructor
    · refine ⟨tail, ?_, ?_⟩
      · rw [← h2, heq]
      · intro p hp
        obtain ⟨h1', h2', h3', -⟩ := hprops p hp
        exact ⟨h1', h2', h3'⟩
    · intro a ha hc
      rw [← h2]
      exact capsic_coverage _ now cid sid a ha hc

/-- C1 witness: instantiates C1_enroll_backfills_progress on the concrete
store dbBase, where enrolling the student succeeds. -/
theorem C1_witness :
    (∃ tail, (enroll_student_in_course dbBase 5 1 "s1").2.progresses = dbBase.progresses ++ tail ∧
      ∀ p ∈ tail, p.studentId = "s1" ∧ p.submitted = false ∧ p.currentQuestionIndex = 0) ∧
    ∀ a ∈ dbBase.assignments, a.courseId = 1 →
      ∃ p ∈ (enroll_student_in_course dbBase 5 1 "s1").2.progresses,
        p.assignmentId = a.id ∧ p.studentId = "s1" :=
  C1_enroll_backfills_progress dbBase 5 1 "s1"
    (enroll_student_in_course dbBase 5 1 "s1").2 (by decide)

/-- C6: enrolling is idempotent — after a successful (true-returning) call,
repeating the call for the same course and student returns false and leaves
the store exactly as it was. -/
theorem C6_enroll_idempotent (db : DB) (now now' cid : Nat) (sid : String)
    (db' : DB) (h : enroll_student_in_course db now cid sid = (true, db')) :
    enroll_student_in_course db' now' cid sid = (false, db') := by
  unfold enroll_student_in_course at h
  by_cases hex : enrollmentExists db cid sid = true
  · simp [hex] at h
  · rw [if_neg hex] at h
    injection h with h1 h2
    obtain ⟨tail, heq, -⟩ := capsic_spec
      { db with enrollments := db.enrollments ++ [{ courseId := cid, studentId := sid, enrolledAt := now }] }
      now cid sid
    have henr : db'.enrollments = db.enrollments ++ [{ courseId := cid, studentId := sid, enrolledAt := now }] := by
      rw [← h2, heq]
    have hex' : enrollmentExists db' cid sid = true := by
      simp [enrollmentExists, henr]
    unfold enroll_student_in_course
    rw [if_pos hex']

/-- C6 witness: instantiates C6_enroll_idempotent on the concrete store
dbBase. -/
theorem C6_witness :
    enroll_student_in_course (enroll_student_in_course dbBase 5 1 "s1").2 6 1 "s1" =
      (false, (enroll_student_in_course dbBase 5 1 "s1").2) :=
  C6_enroll_idempotent dbBase 5 6 1 "s1"
    (enroll_student_in_course dbBase 5 1 "s1").2 (by decide)

theorem capr_filter_eq (now aid : Nat) (studs : List String) :
    ∀ db : DB, studs.Nodup →
      (∀ p ∈ db.progresses, p.assignmentId = aid → p.studentId ∉ studs) →
      (create_assignment_progress_rows db now aid studs).progresses.filter
          (fun p => p.assignmentId == aid) =
        db.progresses.filter (fun p => p.assignmentId == aid) ++
          studs.map (fun s => mkDefaultProgress aid s now) := by
  induction studs with
  | nil => intro db _ _; simp [create_assignment_progress_rows]
  | cons s rest ih =>
      intro db hnd hno
      have hnotex : ¬ progressExists db aid s = true := by
        intro hex
        obtain ⟨p, hp, hk1, hk2⟩ := (progressExists_iff db aid s).mp hex
        exact hno p hp hk1 (hk2 ▸ List.mem_cons_self _ _)
      have hstep : create_assignment_progress_rows db now aid (s :: rest) =
          create_assignment_progress_rows
            { db with progresses := db.progresses ++ [mkDefaultProgress aid s now] }
            now aid rest := by
        simp [create_assignment_progress_rows, List.foldl_cons, hnotex]
      have hnd' : rest.Nodup := hnd.of_cons
      have hsnot : s ∉ rest := by
        intro hmem
        exact (List.nodup_cons.mp hnd).1 hmem
      have hno' : ∀ p ∈ ({ db with progresses := db.progresses ++ [mkDefaultProgress aid s now] } : DB).progresses,
          p.assignmentId = aid → p.studentId ∉ rest := by
        intro p hp ha
        rcases List.mem_append.mp hp with hp' | hp'
        · intro hmem
          exact hno p hp' ha (List.mem_cons_of_mem _ hmem)
        · rcases List.mem_singleton.mp hp' with rfl
          exact hsnot
      have := ih { db with progresses := db.progresses ++ [mkDefaultProgress aid s now] } hnd' hno'
      rw [hstep, this]
      simp [List.filter_append, mkDefaultProgress]

theorem capr_count_lemma (db1 : DB) (now aid : Nat) (studs : List String)
    (hnd : studs.Nodup) (hno : ∀ p ∈ db1.progresses, p.assignmentId ≠ aid) :
    (((create_assignment_progress_rows db1 now aid studs).progresses.filter
        (fun p => p.assignmentId == aid)).length = studs.length) ∧
    (∀ p ∈ (create_assignment_progress_rows db1 now aid studs).progresses,
      p.assignmentId = aid → p.submitted = false ∧ p.studentId ∈ studs) ∧
    (∀ s ∈ studs,
      ∃ p ∈ (create_assignment_progress_rows db1 now aid studs).progresses,
        p.assignmentId = aid ∧ p.studentId = s) := by
  have hno' : ∀ p ∈ db1.progresses, p.assignmentId = aid → p.studentId ∉ studs :=
    fun p hp ha => absurd ha (hno p hp)
  have key := capr_filter_eq now aid studs db1 hnd hno'
  have hnil : db1.progresses.filter (fun p => p.assignmentId == aid) = [] := by
    rw [List.filter_eq_nil_iff]
    intro p hp
    simp [hno p hp]
  rw [hnil, List.nil_append] at key
  refine ⟨?_, ?_, ?_⟩
  · rw [key]
    exact List.length_map _ _
  · intro p hp hpa
    have hpf : p ∈ List.filter (fun p => p.assignmentId == aid)
        (create_assignment_progress_rows db1 now aid studs).progresses := by
      refine List.mem_filter.mpr ⟨hp, ?_⟩
      simp [hpa]
    rw [key] at hpf
    obtain ⟨s, hs, rfl⟩ := List.mem_map.mp hpf
    exact ⟨rfl, hs⟩
  · intro s hs
    refine ⟨mkDefaultProgress aid s now, ?_, rfl, rfl⟩
    apply List.mem_of_mem_filter (p := fun p => p.assignmentId == aid)
    rw [key]
    exact List.mem_map.mpr ⟨s, hs, rfl⟩

/-- C5: creating an assignment on a course with N distinct enrolled students
and no pre-existing progress rows for the fresh assignment id creates exactly
N progress rows for the new assignment, one per enrolled student, each not
submitted. -/
theorem C5_create_assignment_one_row_per_student (db : DB) (now cid : Nat)
    (iid em ti ty de : String) (ni : Option String) (rd ds dh : Option Nat)
    (lp : Option String) (qs : List Int) (a : Assignment) (db' : DB)
    (h : create_assignment db now cid iid em ti ty de ni rd ds dh lp qs = (a, db'))
    (h1 : (get_course_students db cid).Nodup)
    (h2 : ∀ p ∈ db.progresses, p.assignmentId ≠ db.nextAssignmentId) :
    (db'.progresses.filter (fun p => p.assignmentId == a.id)).length =
      (get_course_students db cid).length ∧
    (∀ p ∈ db'.progresses, p.assignmentId = a.id →
      p.submitted = false ∧ p.studentId ∈ get_course_students db cid) ∧
    (∀ s ∈ get_course_students db cid,
      ∃ p ∈ db'.progresses, p.assignmentId = a.id ∧ p.studentId = s) := by
  unfold create_assignment at h
  injection h with ha hdb
  subst ha
  subst hdb
  exact capr_count_lemma _ now _ _ h1 h2

/-- C5 witness: instantiates C5_create_assignment_one_row_per_student on the
concrete store dbEnrolled (one enrolled student). -/
theorem C5_witness :
    (((create_assignment dbEnrolled 3 1 "i1" "" "HW2" "Quiz" "" none (some 1) (some 2) (some 3) (some "10") [1]).2.progresses.filter
        (fun p => p.assignmentId == (create_assignment dbEnrolled 3 1 "i1" "" "HW2" "Quiz" "" none (some 1) (some 2) (some 3) (some "10") [1]).1.id)).length =
      (get_course_students dbEnrolled 1).length) ∧
    (∀ p ∈ (create_assignment dbEnrolled 3 1 "i1" "" "HW2" "Quiz" "" none (some 1) (some 2) (some 3) (some "10") [1]).2.progresses,
      p.assignmentId = (create_assignment dbEnrolled 3 1 "i1" "" "HW2" "Quiz" "" none (some 1) (some 2) (some 3) (some "10") [1]).1.id →
      p.submitted = false ∧ p.studentId ∈ get_course_students dbEnrolled 1) ∧
    (∀ s ∈ get_course_students dbEnrolled 1,
      ∃ p ∈ (create_assignment dbEnrolled 3 1 "i1" "" "HW2" "Quiz" "" none (some 1) (some 2) (some 3) (some "10") [1]).2.progresses,
        p.assignmentId = (create_assignment dbEnrolled 3 1 "i1" "" "HW2" "Quiz" "" none (some 1) (some 2) (some 3) (some "10") [1]).1.id ∧
        p.studentId = s) :=
  C5_create_assignment_one_row_per_student dbEnrolled 3 1 "i1" "" "HW2" "Quiz" "" none
    (some 1) (some 2) (some 3) (some "10") [1] _ _ rfl (by decide) (by decide)

theorem applyProgressUpdate_keys (p : AssignmentProgress) (now : Nat)
    (answers : Option String) (cqi : Option Int) (submitted : Option Bool) :
    (applyProgressUpdate p now answers cqi submitted).assignmentId = p.assignmentId ∧
    (applyProgressUpdate p now answers cqi submitted).studentId = p.studentId := by
  cases answers <;> cases cqi <;> cases submitted <;>
    simp [applyProgressUpdate, apply_ite]

theorem applyProgressUpdate_submittedAt (p : AssignmentProgress) (now : Nat)
    (answers : Option String) (cqi : Option Int) (submitted : Option Bool) :
    (submitted = some true →
      (applyProgressUpdate p now answers cqi submitted).submittedAt = some now) ∧
    (submitted ≠ some true →
      (applyProgressUpdate p now answers cqi submitted).submittedAt = p.submittedAt) := by
  rcases submitted with _ | b
  · cases answers <;> cases cqi <;> simp [applyProgressUpdate]
  · cases b <;> cases answers <;> cases cqi <;> simp [applyProgressUpdate]

theorem applyProgressUpdate_submitted (p : AssignmentProgress) (now : Nat)
    (answers : Option String) (cqi : Option Int) (b : Bool) :
    (applyProgressUpdate p now answers cqi (some b)).submitted = b := by
  cases answers <;> cases cqi <;> cases b <;> simp [applyProgressUpdate]

theorem replaceProgress_find (aid : Nat) (sid : String) (p' : AssignmentProgress)
    (hk1 : p'.assignmentId = aid) (hk2 : p'.studentId = sid) :
    ∀ l : List AssignmentProgress,
      (l.find? (fun p => p.assignmentId == aid && p.studentId == sid)).isSome →
      (replaceProgress l aid sid p').find?
          (fun p => p.assignmentId == aid && p.studentId == sid) = some p' := by
  intro l
  induction l with
  | nil => simp [List.find?]
  | cons q rest ih =>
      intro hsome
      by_cases hq : (q.assignmentId == aid && q.studentId == sid) = true
      · rw [replaceProgress, if_pos hq]
        have : (p'.assignmentId == aid && p'.studentId == sid) = true := by
          simp [hk1, hk2]
        simp [List.find?, this]
      · rw [replaceProgress, if_neg hq]
        rw [List.find?] at hsome ⊢
        rw [Bool.not_eq_true] at hq
        rw [hq] at hsome ⊢
        exact ih hsome

/-- C7: on an existing progress row, upsert_assignment_progress re-stamps
submitted_at exactly when the submitted parameter is literally true; any call
providing only answers, an index, or submitted=false leaves submitted_at as it
was.  The stored row after the call is the returned row. -/
theorem C7_submittedAt_frame (db : DB) (now aid : Nat) (sid : String)
    (answers : Option String) (cqi : Option Int) (submitted : Option Bool)
    (q : AssignmentProgress) (hq : get_assignment_progress db aid sid = some q) :
    (submitted = some true →
      (upsert_assignment_progress db now aid sid answers cqi submitted).1.submittedAt = some now) ∧
    (submitted ≠ some true →
      (upsert_assignment_progress db now aid sid answers cqi submitted).1.submittedAt = q.submittedAt) ∧
    get_assignment_progress
        (upsert_assignment_progress db now aid sid answers cqi submitted).2 aid sid =
      some (upsert_assignment_progress db now aid sid answers cqi submitted).1 := by
  have hq' : List.find? (fun p => p.assignmentId == aid && p.studentId == sid)
      db.progresses = some q := hq
  have hkeyq := List.find?_some hq'
  rw [Bool.and_eq_true, beq_iff_eq, beq_iff_eq] at hkeyq
  have hk := applyProgressUpdate_keys q now answers cqi submitted
  have hat := applyProgressUpdate_submittedAt q now answers cqi submitted
  simp only [upsert_assignment_progress, hq]
  refine ⟨hat.1, hat.2, ?_⟩
  exact replaceProgress_find aid sid _ (hk.1.trans hkeyq.1) (hk.2.trans hkeyq.2)
    db.progresses (by simp [hq'])

/-- C7 witness: instantiates C7_submittedAt_frame on the concrete store
dbWithProgress, whose progress row carries submitted_at = 7. -/
theorem C7_witness :
    (none = some true →
      (upsert_assignment_progress dbWithProgress 9 10 "s1" none (some 3) none).1.submittedAt = some 9) ∧
    (none ≠ some true →
      (upsert_assignment_progress dbWithProgress 9 10 "s1" none (some 3) none).1.submittedAt =
        progSubmitted.submittedAt) ∧
    get_assignment_progress
        (upsert_assignment_progress dbWithProgress 9 10 "s1" none (some 3) none).2 10 "s1" =
      some (upsert_assignment_progress dbWithProgress 9 10 "s1" none (some 3) none).1 :=
  C7_submittedAt_frame dbWithProgress 9 10 "s1" none (some 3) none progSubmitted (by decide)

/-- C10: on a row with submitted=true and a set submitted_at, a save with
submitted=false flips the flag back to false without clearing the timestamp,
and no upsert call whatsoever can bring submitted_at back to null. -/
theorem C10_unsubmit_keeps_timestamp (db : DB) (now aid : Nat) (sid : String)
    (answers : Option String) (cqi : Option Int) (q : AssignmentProgress) (t : Nat)
    (hq : get_assignment_progress db aid sid = some q)
    (_hsub : q.submitted = true) (hat : q.submittedAt = some t) :
    ((upsert_assignment_progress db now aid sid answers cqi (some false)).1.submitted = false) ∧
    ((upsert_assignment_progress db now aid sid answers cqi (some false)).1.submittedAt = some t) ∧
    (∀ (answers' : Option String) (cqi' : Option Int) (submitted' : Option Bool),
      (upsert_assignment_progress db now aid sid answers' cqi' submitted').1.submittedAt ≠ none) := by
  refine ⟨?_, ?_, ?_⟩
  · simp only [upsert_assignment_progress, hq]
    exact applyProgressUpdate_submitted q now answers cqi false
  · simp only [upsert_assignment_progress, hq]
    have := (applyProgressUpdate_submittedAt q now answers cqi (some false)).2 (by simp)
    rw [this, hat]
  · intro answers' cqi' submitted'
    simp only [upsert_assignment_progress, hq]
    by_cases hs : submitted' = some true
    · rw [(applyProgressUpdate_submittedAt q now answers' cqi' submitted').1 hs]
      simp
    · rw [(applyProgressUpdate_submittedAt q now answers' cqi' submitted').2 hs, hat]
      simp

/-- C10 witness: instantiates C10_unsubmit_keeps_timestamp on the concrete
store dbWithProgress (submitted row with timestamp 7). -/
theorem C10_witness :
    ((upsert_assignment_progress dbWithProgress 9 10 "s1" none none (some false)).1.submitted = false) ∧
    ((upsert_assignment_progress dbWithProgress 9 10 "s1" none none (some false)).1.submittedAt = some 7) ∧
    (∀ (answers' : Option String) (cqi' : Option Int) (submitted' : Option Bool),
      (upsert_assignment_progress dbWithProgress 9 10 "s1" answers' cqi' submitted').1.submittedAt ≠ none) :=
  C10_unsubmit_keeps_timestamp dbWithProgress 9 10 "s1" none none progSubmitted 7
    (by decide) (by decide) (by decide)

theorem applyUserRoles_mutex (u : User) (now : Nat) (a t p : Option Bool)
    (h : ¬(u.teacher = true ∧ u.pending = true)) :
    ¬((applyUserRoles u now a t p).teacher = true ∧
      (applyUserRoles u now a t p).pending = true) := by
  obtain ⟨uid0, em0, fn0, ln0, ad0, te0, pe0, ca0, ua0⟩ := u
  rcases t with _ | tb <;> rcases p with _ | pb <;> cases a <;>
    cases te0 <;> cases pe0 <;>
    first
      | (cases tb <;> cases pb <;> simp_all [applyUserRoles])
      | (cases tb <;> simp_all [applyUserRoles])
      | (cases pb <;> simp_all [applyUserRoles])
      | simp_all [applyUserRoles]

theorem applyUserRoles_set_teacher (u : User) (now : Nat) (a p : Option Bool) :
    (applyUserRoles u now a (some true) p).pending = false := by
  rcases p with _ | pb
  · cases a <;> simp [applyUserRoles]
  · cases pb <;> cases a <;> simp [applyUserRoles]

theorem applyUserRoles_set_pending (u : User) (now : Nat) (a t : Option Bool) :
    (applyUserRoles u now a t (some true)).teacher = false := by
  rcases t with _ | tb
  · cases a <;> simp [applyUserRoles]
  · cases tb <;> cases a <;> simp [applyUserRoles]

theorem applyUserProfile_mutex (u : User) (now : Nat) (fn ln : Option String)
    (t p : Option Bool) (h : ¬(u.teacher = true ∧ u.pending = true)) :
    ¬((applyUserProfile u now fn ln t p).teacher = true ∧
      (applyUserProfile u now fn ln t p).pending = true) := by
  obtain ⟨uid0, em0, fn0, ln0, ad0, te0, pe0, ca0, ua0⟩ := u
  rcases t with _ | tb <;> rcases p with _ | pb <;>
    cases te0 <;> cases pe0 <;>
    first
      | (cases tb <;> cases pb <;> simp_all [applyUserProfile])
      | (cases tb <;> simp_all [applyUserProfile])
      | (cases pb <;> simp_all [applyUserProfile])
      | simp_all [applyUserProfile]

theorem applyUserProfile_set_teacher (u : User) (now : Nat) (fn ln : Option String)
    (p : Option Bool) :
    (applyUserProfile u now fn ln (some true) p).pending = false := by
  rcases p with _ | pb
  · simp [applyUserProfile]
  · cases pb <;> simp [applyUserProfile]

theorem applyUserProfile_set_pending (u : User) (now : Nat) (fn ln : Option String)
    (t : Option Bool) :
    (applyUserProfile u now fn ln t (some true)).teacher = false := by
  rcases t with _ | tb
  · simp [applyUserProfile]
  · cases tb <;> simp [applyUserProfile]

theorem mem_replaceUser (uid : String) (v : User) :
    ∀ (l : List User) (w : User), w ∈ replaceUser l uid v → w ∈ l ∨ w = v := by
  intro l
  induction l with
  | nil => intro w hw; simp [replaceUser] at hw
  | cons u rest ih =>
      intro w hw
      by_cases hc : (u.userId == uid) = true
      · rw [replaceUser, if_pos hc] at hw
        rcases List.mem_cons.mp hw with rfl | hw'
        · exact Or.inr rfl
        · exact Or.inl (List.mem_cons_of_mem _ hw')
      · rw [replaceUser, if_neg hc] at hw
        rcases List.mem_cons.mp hw with rfl | hw'
        · exact Or.inl (List.mem_cons_self _ _)
        · rcases ih w hw' with hw'' | rfl
          · exact Or.inl (List.mem_cons_of_mem _ hw'')
          · exact Or.inr rfl

/-- C8: if no stored user has teacher and pending both true, then after any
update_user_roles or update_user_profile call no stored user has both true
either, and the user returned by the call has pending=false whenever the call
set teacher=true and teacher=false whenever the call set pending=true. -/
theorem C8_teacher_pending_exclusive (db : DB) (now : Nat) (uid : String)
    (a t p : Option Bool) (fn ln : Option String)
    (h : ∀ u ∈ db.users, ¬(u.teacher = true ∧ u.pending = true)) :
    (∀ w ∈ (update_user_roles db now uid a t p).2.users,
      ¬(w.teacher = true ∧ w.pending = true)) ∧
    (∀ w, (update_user_roles db now uid a t p).1 = some w →
      (t = some true → w.pending = false) ∧ (p = some true → w.teacher = false)) ∧
    (∀ w ∈ (update_user_profile db now uid fn ln t p).2.users,
      ¬(w.teacher = true ∧ w.pending = true)) ∧
    (∀ w, (update_user_profile db now uid fn ln t p).1 = some w →
      (t = some true → w.pending = false) ∧ (p = some true → w.teacher = false)) := by
  cases hu : get_user_by_user_id db.users uid with
  | none =>
      refine ⟨?_, ?_, ?_, ?_⟩ <;> simp only [update_user_roles, update_user_profile, hu]
      · exact h
      · intro w hw; exact absurd hw (by simp)
      · exact h
      · intro w hw; exact absurd hw (by simp)
  | some u =>
      have humem : u ∈ db.users := List.mem_of_find?_eq_some hu
      have hmu : ¬(u.teacher = true ∧ u.pending = true) := h u humem
      refine ⟨?_, ?_, ?_, ?_⟩ <;> simp only [update_user_roles, update_user_profile, hu]
      · intro w hw
        rcases mem_replaceUser uid _ db.users w hw with hw' | rfl
        · exact h w hw'
        · exact applyUserRoles_mutex u now a t p hmu
      · intro w hw
        have hweq : w = applyUserRoles u now a t p := by
          injection hw with h1
          exact h1.symm
        constructor
        · rintro rfl
          rw [hweq]
          exact applyUserRoles_set_teacher u now a p
        · rintro rfl
          rw [hweq]
          exact applyUserRoles_set_pending u now a t
      · intro w hw
        rcases mem_replaceUser uid _ db.users w hw with hw' | rfl
        · exact h w hw'
        · exact applyUserProfile_mutex u now fn ln t p hmu
      · intro w hw
        have hweq : w = applyUserProfile u now fn ln t p := by
          injection hw with h1
          exact h1.symm
        constructor
        · rintro rfl
          rw [hweq]
          exact applyUserProfile_set_teacher u now fn ln p
        · rintro rfl
          rw [hweq]
          exact applyUserProfile_set_pending u now fn ln t

/-- C8 witness: instantiates C8_teacher_pending_exclusive on the concrete
store dbBase, promoting the student to teacher. -/
theorem C8_witness :
    (∀ w ∈ (update_user_roles dbBase 4 "s1" none (some true) none).2.users,
      ¬(w.teacher = true ∧ w.pending = true)) ∧
    (∀ w, (update_user_roles dbBase 4 "s1" none (some true) none).1 = some w →
      (some true = some true → w.pending = false) ∧
      ((none : Option Bool) = some true → w.teacher = false)) ∧
    (∀ w ∈ (update_user_profile dbBase 4 "s1" none none (some true) none).2.users,
      ¬(w.teacher = true ∧ w.pending = true)) ∧
    (∀ w, (update_user_profile dbBase 4 "s1" none none (some true) none).1 = some w →
      (some true = some true → w.pending = false) ∧
      ((none : Option Bool) = some true → w.teacher = false)) :=
  C8_teacher_pending_exclusive dbBase 4 "s1" none (some true) none none none (by decide)

theorem roster_enrollments_lemma (dbAdd : DB) (now cid : Nat) (addedIds : List String) :
    (addedIds.foldl
        (fun acc s => create_assignment_progress_for_student_in_course acc now cid s)
        dbAdd).enrollments = dbAdd.enrollments := by
  obtain ⟨pr, heq⟩ := fold_capsic_spec now cid addedIds dbAdd
  rw [heq]

theorem roster_filter_map_lemma (l : List CourseStudent) (cid now : Nat) (ids : List String) :
    (((l.filter (fun e => !(e.courseId == cid))) ++
        ids.map (fun s => ({ courseId := cid, studentId := s, enrolledAt := now } : CourseStudent))).filter
      (fun e => e.courseId == cid)).map (fun e => e.studentId) = ids := by
  rw [List.filter_append]
  have h1 : (l.filter (fun e => !(e.courseId == cid))).filter (fun e => e.courseId == cid) = [] := by
    rw [List.filter_filter]
    simp
  rw [h1, List.nil_append]
  have h2 : (ids.map (fun s => ({ courseId := cid, studentId := s, enrolledAt := now } : CourseStudent))).filter
      (fun e => e.courseId == cid) =
      ids.map (fun s => ({ courseId := cid, studentId := s, enrolledAt := now } : CourseStudent)) := by
    rw [List.filter_eq_self]
    intro e he
    obtain ⟨s, hs, rfl⟩ := List.mem_map.mp he
    simp
  rw [h2, List.map_map]
  exact List.map_id ids

/-- C9: replacing a course roster by the owning instructor never fails on ids
of nonexistent or teacher users — the call still returns the course and the
course's enrollment rows afterwards are exactly the ids of the request that
resolve to existing non-teacher users, in order. -/
theorem C9_roster_replacement_lenient (db : DB) (now cid : Nat) (iid : String)
    (cn sn : Option String) (sids : List String) (c : Course)
    (hc : db.courses.find? (fun x => x.id == cid) = some c)
    (hinstr : c.instructorId = iid)
    (_hnd : sids.Nodup) :
    ((update_course db now cid iid cn sn (some sids)).1.isSome = true) ∧
    (((update_course db now cid iid cn sn (some sids)).2.enrollments.filter
        (fun e => e.courseId == cid)).map (fun e => e.studentId) =
      sids.filter (fun s => isValidStudent db.users s)) := by
  simp only [update_course, hc]
  rw [if_neg (by simp [hinstr])]
  refine ⟨rfl, ?_⟩
  rw [roster_enrollments_lemma]
  exact roster_filter_map_lemma db.enrollments cid now
    (sids.filter (fun s => isValidStudent db.users s))

/-- C9 witness: instantiates C9_roster_replacement_lenient on dbBase with a
roster holding a valid student, a teacher id and a nonexistent id. -/
theorem C9_witness :
    ((update_course dbBase 8 1 "i1" none none (some ["s1", "t1", "ghost"])).1.isSome = true) ∧
    (((update_course dbBase 8 1 "i1" none none (some ["s1", "t1", "ghost"])).2.enrollments.filter
        (fun e => e.courseId == 1)).map (fun e => e.studentId) =
      ["s1", "t1", "ghost"].filter (fun s => isValidStudent dbBase.users s)) :=
  C9_roster_replacement_lenient dbBase 8 1 "i1" none none ["s1", "t1", "ghost"] course1
    (by decide) (by decide) (by decide)

theorem isValidStudent_iff (users : List User) (s : String) :
    isValidStudent users s = true ↔
      ∃ v, get_user_by_user_id users s = some v ∧ v.teacher = false := by
  unfold isValidStudent
  cases h : get_user_by_user_id users s <;> simp [h]

theorem update_course_new_enrollments_validated (db : DB) (now cid : Nat)
    (iid : String) (cn sn : Option String) (sids : Option (List String)) :
    ∀ e ∈ (update_course db now cid iid cn sn sids).2.enrollments,
      e ∈ db.enrollments ∨
        ∃ v, get_user_by_user_id db.users e.studentId = some v ∧ v.teacher = false := by
  cases hc : db.courses.find? (fun x => x.id == cid) with
  | none =>
      intro e he
      simp only [update_course, hc] at he
      exact Or.inl he
  | some c =>
      by_cases hi : c.instructorId ≠ iid
      · intro e he
        simp only [update_course, hc, if_pos hi] at he
        exact Or.inl he
      · intro e he
        simp only [update_course, hc, if_neg hi] at he
        cases sids with
        | none => exact Or.inl he
        | some l =>
            rw [roster_enrollments_lemma] at he
            rcases List.mem_append.mp he with he' | he'
            · exact Or.inl (List.mem_of_mem_filter he')
            · obtain ⟨s, hs, rfl⟩ := List.mem_map.mp he'
              have hv : isValidStudent db.users s = true :=
                (List.mem_filter.mp hs).2
              exact Or.inr ((isValidStudent_iff db.users s).mp hv)

/-- C2 counterexample: course creation with an initial student list performs
no validation — creating a course through the create_new_course endpoint with
a teacher's id in student_ids stores an enrollment row for that teacher. -/
theorem C2_counterexample :
    ((match create_new_course dbBase 0 "i1" "CS1" "" ["t1"] "CS1_ZZZZZZ" with
      | Except.ok r => r.2.enrollments.any (fun e => e.courseId == 2 && e.studentId == "t1")
      | Except.error _ => false) = true) ∧
    ((get_user_by_user_id dbBase.users "t1").map (fun u => u.teacher) = some true) := by
  decide

/-- C2 (amended): the no-teacher-enrollment rule is enforced on the two
validated paths — roster replacement inserts only rows whose student id
resolves to an existing non-teacher user, and join-by-code rejects a teacher
caller outright — but course creation and role updates do not maintain it. -/
theorem C2_amended_validated_paths (db : DB) (now cid : Nat)
    (iid uid code : String) (cn sn : Option String) (sids : Option (List String))
    (u : User) (hu : get_user_by_user_id db.users uid = some u)
    (ht : u.teacher = true) :
    (join_course_by_code db now uid code = Except.error ApiError.forbidden) ∧
    (∀ e ∈ (update_course db now cid iid cn sn sids).2.enrollments,
      e ∈ db.enrollments ∨
        ∃ v, get_user_by_user_id db.users e.studentId = some v ∧ v.teacher = false) := by
  constructor
  · simp [join_course_by_code, hu, ht]
  · exact update_course_new_enrollments_validated db now cid iid cn sn sids

/-- C2 witness: instantiates C2_amended_validated_paths on dbBase with the
teacher user attempting to join by code and a roster update on the course. -/
theorem C2_witness :
    (join_course_by_code dbBase 3 "t1" "ALGO_AAAAAA" = Except.error ApiError.forbidden) ∧
    (∀ e ∈ (update_course dbBase 3 1 "i1" none none (some ["s1", "t1"])).2.enrollments,
      e ∈ dbBase.enrollments ∨
        ∃ v, get_user_by_user_id dbBase.users e.studentId = some v ∧ v.teacher = false) :=
  C2_amended_validated_paths dbBase 3 1 "i1" "t1" "ALGO_AAAAAA" none none
    (some ["s1", "t1"]) uTeacher (by decide) (by decide)

/-- C3: delete_course does return true and remove the course's enrollment and
assignment rows, but the progress rows of the deleted assignments survive —
crud.delete_course never deletes them, unlike crud.delete_assignment, and the
default engine configuration provides no cascade. -/
theorem C3_delete_course_leaves_progress :
    (dbWithProgress.assignments.any (fun a => a.id == 10 && a.courseId == 1) = true) ∧
    ((delete_course dbWithProgress 1 "i1").1 = true) ∧
    ((delete_course dbWithProgress 1 "i1").2.enrollments.all
      (fun e => !(e.courseId == 1)) = true) ∧
    ((delete_course dbWithProgress 1 "i1").2.assignments.all
      (fun a => !(a.courseId == 1)) = true) ∧
    ((delete_course dbWithProgress 1 "i1").2.progresses.any
      (fun p => p.assignmentId == 10) = true) := by
  decide

/-- C4 counterexample: the pre-state satisfies hard ≥ soft on every assignment
with both dates set, yet a single update_assignment call that only moves the
soft due date produces a persisted assignment with hard < soft — updates are
not re-validated. -/
theorem C4_counterexample :
    ((dbBase.assignments.all (fun a =>
        match a.dueDateSoft, a.dueDateHard with
        | some s, some h => decide (s ≤ h)
        | _, _ => true)) = true) ∧
    (((update_assignment dbBase 9 10 "i1" none none none none none (some 30) none
        none none).2.assignments.any (fun a =>
          match a.dueDateSoft, a.dueDateHard with
          | some s, some h => decide (h < s)
          | _, _ => false)) = true) := by
  decide

theorem capr_assignments (db : DB) (now aid : Nat) (studs : List String) :
    (create_assignment_progress_rows db now aid studs).assignments = db.assignments := by
  obtain ⟨tail, heq, -⟩ := capr_spec now aid studs db
  rw [heq]

/-- C4 (amended): creation enforces the relation — any payload accepted by the
AssignmentCreate validator has both due dates set with soft ≤ hard, and
create_assignment persists exactly those dates on the stored row — while
update_assignment applies date fields independently without re-validation. -/
theorem C4_amended_creation_validates (db : DB) (now cid : Nat)
    (iid em ti ty de : String) (ni : Option String) (rd ds dh : Option Nat)
    (lp : Option String) (qs : List Int) (a : Assignment) (db' : DB)
    (hcreate : create_assignment db now cid iid em ti ty de ni rd ds dh lp qs = (a, db'))
    (h : validate_required_dates_and_late_policy rd ds dh lp qs = true) :
    (∃ s h', ds = some s ∧ dh = some h' ∧ s ≤ h') ∧
    a.dueDateSoft = ds ∧ a.dueDateHard = dh ∧ a ∈ db'.assignments := by
  unfold create_assignment at hcreate
  injection hcreate with ha hdb
  subst ha
  subst hdb
  refine ⟨?_, rfl, rfl, ?_⟩
  · cases rd with
    | none => simp [validate_required_dates_and_late_policy] at h
    | some r =>
        cases ds with
        | none => simp [validate_required_dates_and_late_policy] at h
        | some s =>
            cases dh with
            | none => simp [validate_required_dates_and_late_policy] at h
            | some h' =>
                cases lp with
                | none => simp [validate_required_dates_and_late_policy] at h
                | some lpv =>
                    refine ⟨s, h', rfl, rfl, ?_⟩
                    simp only [validate_required_dates_and_late_policy] at h
                    split_ifs at h
                    exact of_decide_eq_true h
  · rw [capr_assignments]
    exact List.mem_append_right _ (List.mem_singleton.mpr rfl)

/-- C4 witness: instantiates C4_amended_creation_validates on dbBase with a
payload that passes validation. -/
theorem C4_witness :
    (∃ s h', (some 10 : Option Nat) = some s ∧ (some 20 : Option Nat) = some h' ∧ s ≤ h') ∧
    (create_assignment dbBase 2 1 "i1" "" "HW3" "Exam" "" none (some 1) (some 10) (some 20) (some "50") [1]).1.dueDateSoft = some 10 ∧
    (create_assignment dbBase 2 1 "i1" "" "HW3" "Exam" "" none (some 1) (some 10) (some 20) (some "50") [1]).1.dueDateHard = some 20 ∧
    (create_assignment dbBase 2 1 "i1" "" "HW3" "Exam" "" none (some 1) (some 10) (some 20) (some "50") [1]).1 ∈
      (create_assignment dbBase 2 1 "i1" "" "HW3" "Exam" "" none (some 1) (some 10) (some 20) (some "50") [1]).2.assignments :=
  C4_amended_creation_validates dbBase 2 1 "i1" "" "HW3" "Exam" "" none (some 1)
    (some 10) (some 20) (some "50") [1] _ _ rfl (by decide)

end Caliber
